import Mathlib

/-!
Verification of the Monkey interpreter (parser + tree-walking evaluator).

The evaluator is embedded from src/unnamed/part_000 (package evaluator).
The parser is embedded from src/parser/parser.go.  The object system and
AST definitions (packages object and ast) are only partially present in
the source snapshot (src/object/object.go is an early revision); the
missing parts are modelled from the specification, and each such
definition carries a doc comment saying so.

Modelling conventions:
 - Go's nullable interface value object.Object is modelled as Option Object;
   none models a nil interface value.
 - Go runtime panics (nil-interface method calls, out-of-range slice
   indexing, division by zero) are modelled by the Outcome.hostPanic result.
 - Evaluation is given explicit fuel; Outcome.timeout marks fuel
   exhaustion and is an artifact of the embedding, not a behavior of
   the program.
 - Environments are mutable and shared by reference in Go; they are
   modelled by a heap (list of environment records) addressed by index,
   threaded through evaluation.
 - int64 arithmetic wraps; wrap64 normalizes an Int into the two's
   complement range of 64-bit signed integers exactly as Go does.
-/

/-- An object type tag; Go's object.ObjectType is a string. -/
abbrev ObjectType := String

def INTEGER_OBJ : ObjectType := "INTEGER"

def BOOLEAN_OBJ : ObjectType := "BOOLEAN"

def NULL_OBJ : ObjectType := "NULL"

def RETURN_VALUE_OBJ : ObjectType := "RETURN_VALUE"

/-- Modelled from the spec: object type tags for the object variants whose
definitions are missing from src/object/object.go (an early revision that
declares only the first four tags).  The STRING and ERROR tags appear
verbatim in the repository's own test expectations. -/
def ERROR_OBJ : ObjectType := "ERROR"

def STRING_OBJ : ObjectType := "STRING"

def ARRAY_OBJ : ObjectType := "ARRAY"

def HASH_OBJ : ObjectType := "HASH"

def FUNCTION_OBJ : ObjectType := "FUNCTION"

def BUILTIN_OBJ : ObjectType := "BUILTIN"

/-- Modelled from the spec: a HashKey is a composite (type tag, 64-bit
hash) derived structurally from an object's value (the hashing code of
package object is missing from src/). -/
structure HashKey where
  tag : ObjectType
  value : Nat
  deriving DecidableEq, Repr

mutual

/-- The AST expression variants (package ast is missing from src/;
modelled from the spec's closed variant list, section 3).  Field types
follow the spec: a hash literal carries an ordered sequence of
(key-expr, value-expr) pairs; function parameters are identifiers,
carried here by their names. -/
inductive Expression where
  | identifier (value : String)
  | integerLiteral (value : Int)
  | booleanLit (value : Bool)
  | stringLiteral (value : String)
  | prefixExpression (operator : String) (right : Expression)
  | infixExpression (operator : String) (left : Expression) (right : Expression)
  | ifExpression (condition : Expression) (consequence : BlockStatement)
      (alternative : Option BlockStatement)
  | functionLiteral (parameters : List String) (body : BlockStatement)
  | callExpression (function : Expression) (arguments : List Expression)
  | arrayLiteral (elements : List Expression)
  | hashLiteral (pairs : List (Expression × Expression))
  | indexExpression (left : Expression) (index : Expression)
  deriving Repr

/-- The AST statement variants.  The expression fields are Options
because the Go parser can leave them nil (src/parser/parser.go stores no
value expression in let/return statements, and an expression statement's
expression is nil when no prefix parse function exists). -/
inductive Statement where
  | letStatement (name : String) (value : Option Expression)
  | returnStatement (returnValue : Option Expression)
  | expressionStatement (expression : Option Expression)
  deriving Repr

/-- A block statement: an ordered sequence of statements. -/
inductive BlockStatement where
  | mk (statements : List Statement)
  deriving Repr

end

/-- The root AST node. -/
structure Program where
  statements : List Statement
  deriving Repr

/-- The runtime object variants (the full object.go is missing from
src/; the variant set is the spec's closed list, section 3, and the four
variants present in the early src/object/object.go).  An Array's
elements and a ReturnValue's wrapped value are nullable in Go, hence
Option Object there; a Hash stores, per computed HashKey, the original
key object and the (nullable) value.  A Function's captured environment
is a shared reference, modelled as a heap index.  A Builtin is
identified by its name in the fixed builtin table. -/
inductive Object where
  | integer (value : Int)
  | boolean (value : Bool)
  | null
  | returnValue (value : Option Object)
  | error (message : String)
  | str (value : String)
  | function (parameters : List String) (body : BlockStatement) (env : Nat)
  | builtin (name : String)
  | array (elements : List (Option Object))
  | hash (pairs : List (HashKey × Object × Option Object))
  deriving Repr

/-- Go's Object.Type() method. -/
def objType : Object → ObjectType
  | .integer _ => INTEGER_OBJ
  | .boolean _ => BOOLEAN_OBJ
  | .null => NULL_OBJ
  | .returnValue _ => RETURN_VALUE_OBJ
  | .error _ => ERROR_OBJ
  | .str _ => STRING_OBJ
  | .function _ _ _ => FUNCTION_OBJ
  | .builtin _ => BUILTIN_OBJ
  | .array _ => ARRAY_OBJ
  | .hash _ => HASH_OBJ

/-- Modelled from the spec: an Environment holds a name-to-object map
(last write wins) and an optional outer reference (package object's
Environment is missing from src/; contract from spec sections 3 and
4.2).  Bindings are nullable because Eval's let branch stores whatever
Eval returned, which can be Go nil.  The outer field is a heap index. -/
structure Environment where
  store : List (String × Option Object)
  outer : Option Nat
  deriving Repr

/-- The heap of environments; references are list indices.  Go shares
environments by reference; the heap makes that sharing explicit. -/
abbrev EnvHeap := List Environment

/-- Local (single-environment) lookup in the bindings map. -/
def envLookupLocal : List (String × Option Object) → String → Option (Option Object)
  | [], _ => none
  | (k, v) :: rest, name => if k == name then some v else envLookupLocal rest name

/-- Local update of the bindings map: overwrite an existing binding or
append a fresh one (Go map assignment). -/
def envSetLocal : List (String × Option Object) → String → Option Object →
    List (String × Option Object)
  | [], name, v => [(name, v)]
  | (k, w) :: rest, name, v =>
      if k == name then (k, v) :: rest else (k, w) :: envSetLocal rest name v

/-- Environment.Get: look up locally, then walk outward through outer
references.  The extra fuel argument bounds the chain walk; heaps built
by this evaluator only ever link an environment to earlier-allocated
ones, so a fuel of the heap size is always sufficient. -/
def environmentGet (heap : EnvHeap) : Nat → Nat → String → Option (Option Object)
  | 0, _, _ => none
  | fuel + 1, ref, name =>
      match heap.get? ref with
      | none => none
      | some e =>
          match envLookupLocal e.store name with
          | some v => some v
          | none =>
              match e.outer with
              | some outerRef => environmentGet heap fuel outerRef name
              | none => none

/-- Environment.Set: creates or overwrites a binding in the local map
only, never in an outer environment. -/
def environmentSet (heap : EnvHeap) (ref : Nat) (name : String)
    (v : Option Object) : EnvHeap :=
  match heap.get? ref with
  | none => heap
  | some e => heap.set ref { e with store := envSetLocal e.store name v }

/-- NewEnclosedEnvironment: allocate a fresh empty environment whose
outer reference is the given one; returns the new reference and heap. -/
def newEnclosedEnvironment (heap : EnvHeap) (outerRef : Nat) : Nat × EnvHeap :=
  (heap.length, heap ++ [{ store := [], outer := some outerRef }])

/-- Go's int64 two's complement wrap-around, as an operation on Int. -/
def wrap64 (x : Int) : Int :=
  (x + 2 ^ 63) % 2 ^ 64 - 2 ^ 63

/-- The mutable state threaded through evaluation: the environment heap
and the objects written by the print builtin, in print order (Go writes
their Inspect renderings to stdout). -/
structure EvalState where
  heap : EnvHeap
  output : List Object
  deriving Repr

/-- The result of one Go evaluation step.  val r is a normal return
(none models a nil interface value); hostPanic models a Go runtime
panic; timeout marks fuel exhaustion (an artifact of the embedding). -/
inductive Outcome where
  | val (result : Option Object)
  | hostPanic
  | timeout
  deriving Repr

/-- The result of evalExpressions (Go returns a slice of objects). -/
inductive ListOutcome where
  | objs (objects : List (Option Object))
  | hostPanic
  | timeout
  deriving Repr

/-- nativeBoolToBooleanObject: the TRUE/FALSE singletons are modelled by
the boolean constructor (identity on singletons equals value equality). -/
def nativeBoolToBooleanObject (input : Bool) : Object :=
  .boolean input

/-- isError from the source: nil is not an error; otherwise compare the
type tag. -/
def isError : Option Object → Bool
  | some o => objType o == ERROR_OBJ
  | none => false

/-- isTruthy from the source: the switch compares against the NULL, TRUE
and FALSE singletons; everything else (a nil value included) falls to
the default case and is truthy. -/
def isTruthy : Option Object → Bool
  | some .null => false
  | some (.boolean b) => b
  | _ => true

/-- unwrapReturnValue from the source: strip exactly one ReturnValue
layer; everything else passes through unchanged. -/
def unwrapReturnValue : Option Object → Option Object
  | some (.returnValue v) => v
  | obj => obj

/-- Go interface equality left == right as used by evalInfixExpression
for operand pairs that are not both integers or both strings.  For the
interned TRUE/FALSE/NULL singletons identity coincides with value
equality, which this models exactly; distinct heap allocations compare
unequal, modelled by the catch-all false.  (Comparing an aliased
composite object with itself would be true in Go; no theorem below
relies on that case.) -/
def goIdentityEq : Object → Object → Bool
  | .boolean a, .boolean b => a == b
  | .null, .null => true
  | _, _ => false

/-- evalBangOperatorExpression from the source: switch on the TRUE,
FALSE and NULL singletons with a default of FALSE (a nil value also
falls to the default). -/
def evalBangOperatorExpression : Option Object → Object
  | some (.boolean true) => nativeBoolToBooleanObject false
  | some (.boolean false) => nativeBoolToBooleanObject true
  | some .null => nativeBoolToBooleanObject true
  | _ => nativeBoolToBooleanObject false

/-- evalMinusPrefixOperatorExpression from the source.  Calling Type()
on a nil operand panics; a non-integer operand produces the unknown
operator error; negation wraps like Go int64 negation. -/
def evalMinusPrefixOperatorExpression : Option Object → Outcome
  | none => .hostPanic
  | some (.integer v) => .val (some (.integer (wrap64 (-v))))
  | some r => .val (some (.error ("unknown operator: -" ++ objType r)))

/-- evalPrefixExpression from the source: dispatch on the operator; the
default branch formats the operand's type, panicking on nil. -/
def evalPrefixExpression (operator : String) (right : Option Object) : Outcome :=
  if operator == "!" then .val (some (evalBangOperatorExpression right))
  else if operator == "-" then evalMinusPrefixOperatorExpression right
  else
    match right with
    | none => .hostPanic
    | some r => .val (some (.error ("unknown operator: " ++ operator ++ objType r)))

/-- evalIntegerInfixExpression from the source.  Both operands have
already been checked to be integers; the type assertions are modelled by
the catch-all panic.  Arithmetic wraps as Go int64 arithmetic does, and
division by zero is a Go runtime panic. -/
def evalIntegerInfixExpression (operator : String) (left right : Object) : Outcome :=
  match left, right with
  | .integer leftVal, .integer rightVal =>
      if operator == "+" then .val (some (.integer (wrap64 (leftVal + rightVal))))
      else if operator == "-" then .val (some (.integer (wrap64 (leftVal - rightVal))))
      else if operator == "*" then .val (some (.integer (wrap64 (leftVal * rightVal))))
      else if operator == "/" then
        if rightVal = 0 then .hostPanic
        else .val (some (.integer (wrap64 (Int.tdiv leftVal rightVal))))
      else if operator == ">" then
        .val (some (nativeBoolToBooleanObject (decide (rightVal < leftVal))))
      else if operator == "<" then
        .val (some (nativeBoolToBooleanObject (decide (leftVal < rightVal))))
      else if operator == "==" then
        .val (some (nativeBoolToBooleanObject (decide (leftVal = rightVal))))
      else if operator == "!=" then
        .val (some (nativeBoolToBooleanObject (decide (leftVal ≠ rightVal))))
      else
        .val (some (.error ("unknown operator: " ++ objType left ++ " " ++
          operator ++ " " ++ objType right)))
  | _, _ => .hostPanic

/-- evalStringInfixExpression from the source: concatenation with +,
lexicographic order comparisons, equality, inequality; anything else is
the unknown operator error. -/
def evalStringInfixExpression (operator : String) (left right : Object) : Outcome :=
  match left, right with
  | .str leftVal, .str rightVal =>
      if operator == "+" then .val (some (.str (leftVal ++ rightVal)))
      else if operator == ">" then
        .val (some (nativeBoolToBooleanObject (decide (rightVal < leftVal))))
      else if operator == "<" then
        .val (some (nativeBoolToBooleanObject (decide (leftVal < rightVal))))
      else if operator == "==" then
        .val (some (nativeBoolToBooleanObject (decide (leftVal = rightVal))))
      else if operator == "!=" then
        .val (some (nativeBoolToBooleanObject (decide (leftVal ≠ rightVal))))
      else
        .val (some (.error ("unknown operator: " ++ objType left ++ " " ++
          operator ++ " " ++ objType right)))
  | _, _ => .hostPanic

/-- evalInfixExpression from the source.  The first switch case calls
Type() on both operands, so a nil operand panics before any other
branch is considered. -/
def evalInfixExpression (operator : String) (left right : Option Object) : Outcome :=
  match left, right with
  | none, _ => .hostPanic
  | _, none => .hostPanic
  | some l, some r =>
      if objType l == INTEGER_OBJ && objType r == INTEGER_OBJ then
        evalIntegerInfixExpression operator l r
      else if objType l == STRING_OBJ && objType r == STRING_OBJ then
        evalStringInfixExpression operator l r
      else if operator == "==" then
        .val (some (nativeBoolToBooleanObject (goIdentityEq l r)))
      else if operator == "!=" then
        .val (some (nativeBoolToBooleanObject (!goIdentityEq l r)))
      else if objType l != objType r then
        .val (some (.error ("type mismatch: " ++ objType l ++ " " ++
          operator ++ " " ++ objType r)))
      else
        .val (some (.error ("unknown operator: " ++ objType l ++ " " ++
          operator ++ " " ++ objType r)))

/-- evalArrayIndexExpression from the source: compute maxIdx as the
element count minus one; a negative index or one above maxIdx yields
NULL, otherwise the element at that position (itself possibly nil).
The unchecked type assertions of the source are the catch-all panic. -/
def evalArrayIndexExpression (array index : Object) : Outcome :=
  match array, index with
  | .array elements, .integer idx =>
      let maxIdx : Int := (elements.length : Int) - 1
      if idx < 0 ∨ maxIdx < idx then .val (some .null)
      else .val (elements.getD idx.toNat none)
  | _, _ => .hostPanic

/-- Modelled from the spec: the Hashable interface is implemented by
exactly the Integer, Boolean and String variants; the HashKey is derived
structurally from the value (spec section 3).  The hashing code is
missing from src/; an integer hashes to its uint64 bit pattern, a
boolean to 1 or 0, and a string through a 64-bit FNV-1a style fold of
its characters.  No theorem below depends on the string hash values. -/
def hashKeyOf : Object → Option HashKey
  | .integer v => some ⟨INTEGER_OBJ, ((v % (2 : Int) ^ 64) : Int).toNat⟩
  | .boolean b => some ⟨BOOLEAN_OBJ, if b then 1 else 0⟩
  | .str s => some ⟨STRING_OBJ,
      s.data.foldl (fun h c => ((h ^^^ c.toNat) * 1099511628211) % 2 ^ 64)
        14695981039346656037⟩
  | _ => none

/-- Lookup in the stored hash pairs by computed HashKey (Go map read). -/
def hashFind : List (HashKey × Object × Option Object) → HashKey →
    Option (Object × Option Object)
  | [], _ => none
  | (k, pair) :: rest, key => if k == key then some pair else hashFind rest key

/-- Insert into the stored hash pairs by computed HashKey: overwrite the
pair stored under an equal key, else append (Go map write). -/
def hashInsert (pairs : List (HashKey × Object × Option Object))
    (key : HashKey) (pair : Object × Option Object) :
    List (HashKey × Object × Option Object) :=
  match pairs with
  | [] => [(key, pair)]
  | (k, p) :: rest =>
      if k == key then (k, pair) :: rest else (k, p) :: hashInsert rest key pair

/-- evalHashIndexExpression from the source: a failed Hashable assertion
produces the unusable-as-hash-key error (formatting a nil index's type
panics); an absent key yields NULL, a present key its stored value. -/
def evalHashIndexExpression (hash : Object) (index : Option Object) : Outcome :=
  match hash with
  | .hash pairs =>
      match index with
      | none => .hostPanic
      | some i =>
          match hashKeyOf i with
          | none => .val (some (.error ("unusable as hash key: " ++ objType i)))
          | some key =>
              match hashFind pairs key with
              | none => .val (some .null)
              | some (_, value) => .val value
  | _ => .hostPanic

/-- evalIndexExpression from the source.  The first switch case calls
Type() on the container (panicking on nil) and, if the container is an
array, on the index; the default case reports the unsupported container
type. -/
def evalIndexExpression (left index : Option Object) : Outcome :=
  match left with
  | none => .hostPanic
  | some l =>
      if objType l == ARRAY_OBJ then
        match index with
        | none => .hostPanic
        | some i =>
            if objType i == INTEGER_OBJ then evalArrayIndexExpression l i
            else .val (some (.error ("index operator not supported: " ++ objType l)))
      else if objType l == HASH_OBJ then evalHashIndexExpression l index
      else .val (some (.error ("index operator not supported: " ++ objType l)))

/- The print builtin writes arg.Inspect() to stdout for each argument.
Inspect is a pure rendering of the object (its code for the composite
variants is missing from src/), so the observable output is abstracted
here as the sequence of objects handed to the renderer, in print order,
rather than as rendered text.  Calling Inspect on a nil argument is a
Go panic; a nil buried inside a composite being rendered would also
panic in Go, which this abstraction does not track (no theorem prints a
composite object). -/

/-- Names of the fixed builtin table (the builtins map of the source). -/
def builtinNames : List String := ["len", "first", "last", "rest", "push", "print"]

/-- The argument loop of the print builtin.  Go prints each argument
before rendering the next, so the output emitted before a nil
dereference survives the panic; the boolean marks whether rendering
panicked (a nil argument). -/
def printLinesAux : List (Option Object) → List Object × Bool
  | [] => ([], false)
  | none :: _ => ([], true)
  | some o :: rest =>
      let (ls, p) := printLinesAux rest
      (o :: ls, p)

/-- The native behavior of each builtin (the Fn closures of the builtins
map in the source), on an evaluated argument list.  Returns the outcome
and the lines printed.  Calling Type() or Inspect() on a nil argument is
a panic.  The names are quoted with backticks in the error messages
exactly as the source formats them. -/
def callBuiltin (name : String) (args : List (Option Object)) : Outcome × List Object :=
  if name == "len" then
    if args.length ≠ 1 then
      (.val (some (.error ("wrong number of arguments: got=" ++
        toString args.length ++ ", want=1"))), [])
    else
      match args with
      | [some (.str s)] => (.val (some (.integer (s.utf8ByteSize : Int))), [])
      | [some (.array elements)] => (.val (some (.integer (elements.length : Int))), [])
      | [some o] =>
          (.val (some (.error ("argument to `len` not supported, got=" ++ objType o))), [])
      | _ => (.hostPanic, [])
  else if name == "first" then
    if args.length ≠ 1 then
      (.val (some (.error ("wrong number of arguments: got=" ++
        toString args.length ++ ", want=1"))), [])
    else
      match args with
      | [some (.array elements)] =>
          if 0 < elements.length then (.val (elements.getD 0 none), [])
          else (.val (some .null), [])
      | [some o] =>
          (.val (some (.error ("argument to `first` must be ARRAY, got=" ++ objType o))), [])
      | _ => (.hostPanic, [])
  else if name == "last" then
    if args.length ≠ 1 then
      (.val (some (.error ("wrong number of arguments: got=" ++
        toString args.length ++ ", want=1"))), [])
    else
      match args with
      | [some (.array elements)] =>
          if 0 < elements.length then (.val (elements.getD (elements.length - 1) none), [])
          else (.val (some .null), [])
      | [some o] =>
          (.val (some (.error ("argument to `last` must be ARRAY, got=" ++ objType o))), [])
      | _ => (.hostPanic, [])
  else if name == "rest" then
    if args.length ≠ 1 then
      (.val (some (.error ("wrong number of arguments: got=" ++
        toString args.length ++ ", want=1"))), [])
    else
      match args with
      | [some (.array elements)] =>
          if 0 < elements.length then (.val (some (.array (elements.drop 1))), [])
          else (.val (some .null), [])
      | [some o] =>
          (.val (some (.error ("argument to `rest` must be ARRAY, got=" ++ objType o))), [])
      | _ => (.hostPanic, [])
  else if name == "push" then
    if args.length ≠ 2 then
      (.val (some (.error ("wrong number of arguments: got=" ++
        toString args.length ++ ", want=2"))), [])
    else
      match args with
      | [some (.array elements), x] => (.val (some (.array (elements ++ [x]))), [])
      | [some o, _] =>
          (.val (some (.error ("argument to `push` must be ARRAY, got=" ++ objType o))), [])
      | _ => (.hostPanic, [])
  else if name == "print" then
    let (ls, p) := printLinesAux args
    if p then (.hostPanic, ls) else (.val (some .null), ls)
  else
    (.hostPanic, [])

/-- evalIdentifier from the source: look up the environment chain first,
then the builtin table, and report identifier not found otherwise. -/
def evalIdentifier (heap : EnvHeap) (env : Nat) (name : String) : Outcome :=
  match environmentGet heap (heap.length + 1) env name with
  | some v => .val v
  | none =>
      if builtinNames.contains name then .val (some (.builtin name))
      else .val (some (.error ("identifier not found: " ++ name)))

/-- The parameter-binding loop of extendFunction: iterate over the
parameters, reading args by position; a parameter beyond the argument
list is a Go index-out-of-range panic, modelled by none. -/
def bindParameters (heap : EnvHeap) (ref : Nat) :
    List String → List (Option Object) → Option EnvHeap
  | [], _ => some heap
  | _ :: _, [] => none
  | p :: ps, a :: rest => bindParameters (environmentSet heap ref p a) ref ps rest

/-- extendFunction from the source: allocate an environment enclosing
the function's captured environment (never the caller's), then bind
parameters positionally; none models the panic when the call supplied
fewer arguments than parameters. -/
def extendFunction (heap : EnvHeap) (parameters : List String) (fnEnv : Nat)
    (args : List (Option Object)) : Option (Nat × EnvHeap) :=
  let (ref, heap1) := newEnclosedEnvironment heap fnEnv
  match bindParameters heap1 ref parameters args with
  | none => none
  | some heap2 => some (ref, heap2)

mutual

/-- Eval on an expression node (the expression cases of the source's
Eval switch), with explicit fuel.  env is the current environment
reference. -/
def evalExpr : Nat → Expression → Nat → EvalState → Outcome × EvalState
  | 0, _, _, s => (.timeout, s)
  | fuel + 1, e, env, s =>
      match e with
      | .integerLiteral v => (.val (some (.integer v)), s)
      | .booleanLit b => (.val (some (nativeBoolToBooleanObject b)), s)
      | .stringLiteral v => (.val (some (.str v)), s)
      | .identifier name => (evalIdentifier s.heap env name, s)
      | .prefixExpression op right =>
          match evalExpr fuel right env s with
          | (.val r, s1) =>
              if isError r then (.val r, s1) else (evalPrefixExpression op r, s1)
          | other => other
      | .infixExpression op left right =>
          match evalExpr fuel left env s with
          | (.val l, s1) =>
              if isError l then (.val l, s1)
              else
                match evalExpr fuel right env s1 with
                | (.val r, s2) =>
                    if isError r then (.val r, s2)
                    else (evalInfixExpression op l r, s2)
                | other => other
          | other => other
      | .ifExpression cond cons alt => evalIfExpression fuel cond cons alt env s
      | .functionLiteral parameters body =>
          (.val (some (.function parameters body env)), s)
      | .callExpression f arguments =>
          match evalExpr fuel f env s with
          | (.val fv, s1) =>
              if isError fv then (.val fv, s1)
              else
                match evalExpressions fuel arguments env s1 [] with
                | (.objs args, s2) =>
                    if args.length == 1 && isError (args.getD 0 none) then
                      (.val (args.getD 0 none), s2)
                    else applyFunction fuel fv args s2
                | (.hostPanic, s2) => (.hostPanic, s2)
                | (.timeout, s2) => (.timeout, s2)
          | other => other
      | .arrayLiteral elemExprs =>
          match evalExpressions fuel elemExprs env s [] with
          | (.objs elements, s1) =>
              if elements.length == 1 && isError (elements.getD 0 none) then
                (.val (elements.getD 0 none), s1)
              else (.val (some (.array elements)), s1)
          | (.hostPanic, s1) => (.hostPanic, s1)
          | (.timeout, s1) => (.timeout, s1)
      | .indexExpression left index =>
          match evalExpr fuel left env s with
          | (.val l, s1) =>
              match evalExpr fuel index env s1 with
              | (.val i, s2) =>
                  if isError l then (.val l, s2)
                  else if isError i then (.val i, s2)
                  else (evalIndexExpression l i, s2)
              | other => other
          | other => other
      | .hashLiteral pairs => evalHashPairs fuel pairs env s []
termination_by structural fuel _ _ _ => fuel

/-- Eval on a statement node (the statement cases of the source's Eval
switch).  The let branch falls out of the switch after binding, so it
returns the nil value. -/
def evalStmt : Nat → Statement → Nat → EvalState → Outcome × EvalState
  | 0, _, _, s => (.timeout, s)
  | fuel + 1, stmt, env, s =>
      match stmt with
      | .expressionStatement (some e) => evalExpr fuel e env s
      | .expressionStatement none => (.val none, s)
      | .letStatement name value =>
          match
            (match value with
             | some e => evalExpr fuel e env s
             | none => (.val none, s)) with
          | (.val v, s1) =>
              if isError v then (.val v, s1)
              else (.val none, { s1 with heap := environmentSet s1.heap env name v })
          | other => other
      | .returnStatement value =>
          match
            (match value with
             | some e => evalExpr fuel e env s
             | none => (.val none, s)) with
          | (.val v, s1) =>
              if isError v then (.val v, s1)
              else (.val (some (.returnValue v)), s1)
          | other => other
termination_by structural fuel _ _ _ => fuel

/-- evalProgram from the source: evaluate the statements in order,
returning early with the wrapped value of a ReturnValue result or with
an Error result; the empty statement list returns the nil value. -/
def evalProgram : Nat → List Statement → Nat → EvalState → Outcome × EvalState
  | 0, _, _, s => (.timeout, s)
  | fuel + 1, stmts, env, s =>
      match stmts with
      | [] => (.val none, s)
      | stmt :: rest =>
          match evalStmt fuel stmt env s with
          | (.val r, s1) =>
              match r with
              | some (.returnValue v) => (.val v, s1)
              | some (.error m) => (.val (some (.error m)), s1)
              | _ => if rest.isEmpty then (.val r, s1) else evalProgram fuel rest env s1
          | other => other
termination_by structural fuel _ _ _ => fuel

/-- evalBlockStatements from the source: evaluate the statements in
order; a non-nil result whose type is RETURN_VALUE or ERROR is returned
as is (not unwrapped); the empty block returns the nil value. -/
def evalBlockStmts : Nat → List Statement → Nat → EvalState → Outcome × EvalState
  | 0, _, _, s => (.timeout, s)
  | fuel + 1, stmts, env, s =>
      match stmts with
      | [] => (.val none, s)
      | stmt :: rest =>
          match evalStmt fuel stmt env s with
          | (.val r, s1) =>
              match r with
              | some o =>
                  if objType o == RETURN_VALUE_OBJ || objType o == ERROR_OBJ then
                    (.val r, s1)
                  else if rest.isEmpty then (.val r, s1)
                  else evalBlockStmts fuel rest env s1
              | none => if rest.isEmpty then (.val none, s1) else evalBlockStmts fuel rest env s1
          | other => other
termination_by structural fuel _ _ _ => fuel

/-- evalIfExpression from the source: evaluate the condition (propagate
errors), then the consequence when truthy, the alternative when present,
and NULL otherwise. -/
def evalIfExpression : Nat → Expression → BlockStatement → Option BlockStatement →
    Nat → EvalState → Outcome × EvalState
  | 0, _, _, _, _, s => (.timeout, s)
  | fuel + 1, cond, .mk consStmts, alt, env, s =>
      match evalExpr fuel cond env s with
      | (.val c, s1) =>
          if isError c then (.val c, s1)
          else if isTruthy c then evalBlockStmts fuel consStmts env s1
          else
            match alt with
            | some (.mk altStmts) => evalBlockStmts fuel altStmts env s1
            | none => (.val (some .null), s1)
      | other => other
termination_by structural fuel _ _ _ _ _ => fuel

/-- evalExpressions from the source, with the accumulated argument list
made explicit: evaluate left to right; the first error discards what was
accumulated and returns a one-element list holding that error. -/
def evalExpressions : Nat → List Expression → Nat → EvalState →
    List (Option Object) → ListOutcome × EvalState
  | 0, _, _, s, _ => (.timeout, s)
  | fuel + 1, exps, env, s, acc =>
      match exps with
      | [] => (.objs acc, s)
      | e :: rest =>
          match evalExpr fuel e env s with
          | (.val v, s1) =>
              if isError v then (.objs [v], s1)
              else evalExpressions fuel rest env s1 (acc ++ [v])
          | (.hostPanic, s1) => (.hostPanic, s1)
          | (.timeout, s1) => (.timeout, s1)
termination_by structural fuel _ _ _ _ => fuel

/-- The pair loop of evalHashLiteral, with the accumulated stored pairs
made explicit: for each declared pair in order, evaluate the key
(propagate an error), check hashability, evaluate the value (propagate
an error), and store under the computed HashKey. -/
def evalHashPairs : Nat → List (Expression × Expression) → Nat → EvalState →
    List (HashKey × Object × Option Object) → Outcome × EvalState
  | 0, _, _, s, _ => (.timeout, s)
  | fuel + 1, pairs, env, s, acc =>
      match pairs with
      | [] => (.val (some (.hash acc)), s)
      | (keyExpr, valueExpr) :: rest =>
          match evalExpr fuel keyExpr env s with
          | (.val k, s1) =>
              if isError k then (.val k, s1)
              else
                match k with
                | none => (.hostPanic, s1)
                | some kobj =>
                    match hashKeyOf kobj with
                    | none =>
                        (.val (some (.error ("unusable as hash key: " ++ objType kobj))), s1)
                    | some hk =>
                        match evalExpr fuel valueExpr env s1 with
                        | (.val v, s2) =>
                            if isError v then (.val v, s2)
                            else evalHashPairs fuel rest env s2 (hashInsert acc hk (kobj, v))
                        | other => other
          | other => other
termination_by structural fuel _ _ _ _ => fuel

/-- applyFunction from the source: a Function gets a fresh environment
enclosing its captured environment, its body is evaluated there and a
ReturnValue result is unwrapped once; a Builtin's native behavior is
invoked directly; calling a nil value panics on the Type() call of the
error format; anything else is the not-a-function error. -/
def applyFunction : Nat → Option Object → List (Option Object) → EvalState →
    Outcome × EvalState
  | 0, _, _, s => (.timeout, s)
  | fuel + 1, fn, args, s =>
      match fn with
      | some (.function parameters body fnEnv) =>
          match extendFunction s.heap parameters fnEnv args with
          | none => (.hostPanic, s)
          | some (ref, heap1) =>
              match body with
              | .mk bodyStmts =>
                  match evalBlockStmts fuel bodyStmts ref { s with heap := heap1 } with
                  | (.val v, s2) => (.val (unwrapReturnValue v), s2)
                  | other => other
      | some (.builtin name) =>
          let (res, lines) := callBuiltin name args
          (res, { s with output := s.output ++ lines })
      | none => (.hostPanic, s)
      | some other => (.val (some (.error ("not a function: " ++ objType other))), s)
termination_by structural fuel _ _ _ => fuel

end

/-- Eval on the Program node: dispatch to evalProgram, as the source's
Eval does. -/
def Eval (fuel : Nat) (program : Program) (env : Nat) (s : EvalState) :
    Outcome × EvalState :=
  evalProgram fuel program.statements env s

/-- The top-level state: one fresh environment (NewEnvironment) at
reference 0 and no output. -/
def initialState : EvalState :=
  { heap := [{ store := [], outer := none }], output := [] }

/-- Parse-free entry point: evaluate a program against a fresh top-level
environment, as the driver does. -/
def runProgram (fuel : Nat) (program : Program) : Outcome × EvalState :=
  Eval fuel program 0 initialState

/-- The token kinds of package token (missing from src/; the set is the
spec's closed enumeration, section 3, with the kinds the parser in
src/parser/parser.go refers to). -/
inductive TokenType where
  | IDENT | INT | STRING | ASSIGN | PLUS | MINUS | BANG | ASTERISK | SLASH
  | LT | GT | EQ | NOT_EQ | COMMA | SEMICOLON | COLON
  | LPAREN | RPAREN | LBRACE | RBRACE | LBRACKET | RBRACKET
  | FUNCTION | LET | TRUE | FALSE | IF | ELSE | RETURN | EOF | ILLEGAL
  deriving DecidableEq, Repr

/-- A rendering of a token kind, used only inside parser diagnostics (no
theorem asserts diagnostic text). -/
def tokenTypeString : TokenType → String
  | .IDENT => "IDENT"
  | .INT => "INT"
  | .STRING => "STRING"
  | .ASSIGN => "="
  | .PLUS => "+"
  | .MINUS => "-"
  | .BANG => "!"
  | .ASTERISK => "*"
  | .SLASH => "/"
  | .LT => "<"
  | .GT => ">"
  | .EQ => "=="
  | .NOT_EQ => "!="
  | .COMMA => ","
  | .SEMICOLON => ";"
  | .COLON => ":"
  | .LPAREN => "("
  | .RPAREN => ")"
  | .LBRACE => "LBRACE"
  | .RBRACE => "RBRACE"
  | .LBRACKET => "["
  | .RBRACKET => "]"
  | .FUNCTION => "FUNCTION"
  | .LET => "LET"
  | .TRUE => "TRUE"
  | .FALSE => "FALSE"
  | .IF => "IF"
  | .ELSE => "ELSE"
  | .RETURN => "RETURN"
  | .EOF => "EOF"
  | .ILLEGAL => "ILLEGAL"

/-- A token: kind and literal text. -/
structure Token where
  type : TokenType
  literal : String
  deriving DecidableEq, Repr

/-- The end-of-input token; the tokenizer yields it forever once the
stream is exhausted. -/
def eofToken : Token := ⟨.EOF, ""⟩

/-- The parser state of src/parser/parser.go: the remaining token stream
(standing for the lexer), the two-token lookahead window, and the
accumulated diagnostics.  The hung flag is an artifact of the embedding:
it marks that a skip-to-semicolon loop of the source would have run
forever (no theorem exercises a hung parse). -/
structure ParserState where
  remaining : List Token
  curToken : Token
  peekToken : Token
  errors : List String
  hung : Bool
  deriving Repr

/-- nextToken from the source: shift peek into current and pull the next
token from the tokenizer. -/
def pNextToken (p : ParserState) : ParserState :=
  match p.remaining with
  | [] => { p with curToken := p.peekToken, peekToken := eofToken }
  | t :: rest => { p with curToken := p.peekToken, peekToken := t, remaining := rest }

/-- New from the source: build the parser and read two tokens so that
curToken and peekToken are both set.  Registration installs prefix
functions for exactly IDENT, INT, BANG and MINUS; no infix function is
ever registered in this revision. -/
def New (tokens : List Token) : ParserState :=
  pNextToken (pNextToken ⟨tokens, eofToken, eofToken, [], false⟩)

/-- The prefix-function table of New: exactly the four registered kinds. -/
def hasPrefixFn (t : TokenType) : Bool :=
  t == .IDENT || t == .INT || t == .BANG || t == .MINUS

/-- The operator precedence levels of the source. -/
def LOWEST : Nat := 1

def EQUALS : Nat := 2

def LESSERGREATER : Nat := 3

def SUM : Nat := 4

def PRODUCT : Nat := 5

def PREFIX : Nat := 6

def CALL : Nat := 7

/-- peekError from the source. -/
def peekError (t : TokenType) (p : ParserState) : ParserState :=
  { p with errors := p.errors ++ ["expected next token to be " ++
      tokenTypeString t ++ ", got " ++ tokenTypeString p.peekToken.type ++ " instead"] }

/-- noPrefixParseFnError from the source. -/
def noPrefixParseFnError (t : TokenType) (p : ParserState) : ParserState :=
  { p with errors := p.errors ++ ["no prefix parse function found for " ++
      tokenTypeString t] }

/-- expectPeek from the source: advance on a match, else record the
diagnostic without advancing. -/
def expectPeek (t : TokenType) (p : ParserState) : Bool × ParserState :=
  if p.peekToken.type == t then (true, pNextToken p)
  else (false, peekError t p)

/-- Parse a decimal integer literal.  Modelled from the spec: the body
of parseIntegerLiteral is not in src/parser/parser.go (it lives in a
file missing from the snapshot); the spec registers a literal prefix
rule producing an IntegerLiteral from the current token. -/
def parseDecimalInt (s : String) : Option Int :=
  if s.data ≠ [] ∧ s.data.all (fun c => c.isDigit) then
    some (s.data.foldl (fun acc c => acc * 10 + ((c.toNat : Int) - 48)) 0)
  else none

/-- Modelled from the spec: the identifier prefix rule (its body is not
in src/parser/parser.go): produce an Identifier from the current token's
literal, without advancing. -/
def parseIdentifer (p : ParserState) : Option Expression × ParserState :=
  (some (.identifier p.curToken.literal), p)

/-- Modelled from the spec: the integer-literal prefix rule (its body is
not in src/parser/parser.go): produce an IntegerLiteral from the current
token's literal, recording a diagnostic when the literal does not parse. -/
def parseIntegerLiteral (p : ParserState) : Option Expression × ParserState :=
  match parseDecimalInt p.curToken.literal with
  | some v => (some (.integerLiteral v), p)
  | none =>
      (none, { p with errors := p.errors ++ ["could not parse " ++
        p.curToken.literal ++ " as integer"] })

/-- The skip-until-semicolon loop shared by parseLetStatement and
parseReturnStatement in the source (they skip the expression).  Without
a semicolon the source loops forever on the endless EOF tokens; fuel
exhaustion sets the hung flag instead. -/
def skipToSemicolon : Nat → ParserState → ParserState
  | 0, p => { p with hung := true }
  | fuel + 1, p =>
      if p.curToken.type == .SEMICOLON then p
      else skipToSemicolon fuel (pNextToken p)

mutual

/-- parseExpression from src/parser/parser.go, exactly as written there:
look up the prefix function for the current token (recording the
no-prefix-parse-function diagnostic and returning nil when absent),
invoke it, and return its result.  This revision registers no infix
functions and has no precedence loop, so the precedence argument is
read but never used. -/
def parseExpression : Nat → Nat → ParserState → Option Expression × ParserState
  | 0, _, p => (none, { p with hung := true })
  | fuel + 1, _precedence, p =>
      if hasPrefixFn p.curToken.type then
        match p.curToken.type with
        | .IDENT => parseIdentifer p
        | .INT => parseIntegerLiteral p
        | .BANG => parsePrefixExpression fuel p
        | .MINUS => parsePrefixExpression fuel p
        | _ => (none, p)
      else (none, noPrefixParseFnError p.curToken.type p)
termination_by structural fuel _ _ => fuel

/-- Modelled from the spec: the unary prefix rule registered for BANG
and MINUS (its body is not in src/parser/parser.go): remember the
operator, advance, and parse the operand at PREFIX precedence.  The
missing source stores a possibly-nil operand; here a failed operand
parse yields no expression (no theorem exercises this rule). -/
def parsePrefixExpression : Nat → ParserState → Option Expression × ParserState
  | 0, p => (none, { p with hung := true })
  | fuel + 1, p =>
      let operator := p.curToken.literal
      let p1 := pNextToken p
      match parseExpression fuel PREFIX p1 with
      | (some right, p2) => (some (.prefixExpression operator right), p2)
      | (none, p2) => (none, p2)
termination_by structural fuel _ => fuel

end

/-- parseExpressionStatement from the source: parse at LOWEST, then
consume an optional trailing semicolon; the statement node is returned
even when the expression is nil. -/
def parseExpressionStatement (fuel : Nat) (p : ParserState) :
    Statement × ParserState :=
  let (expr, p1) := parseExpression fuel LOWEST p
  let p2 := if p1.peekToken.type == .SEMICOLON then pNextToken p1 else p1
  (.expressionStatement expr, p2)

/-- parseLetStatement from the source: expect an identifier and an
assign token, then skip tokens until a semicolon; the produced let
statement carries no value expression (the source never sets it). -/
def parseLetStatement (fuel : Nat) (p : ParserState) :
    Option Statement × ParserState :=
  match expectPeek .IDENT p with
  | (false, p1) => (none, p1)
  | (true, p1) =>
      let name := p1.curToken.literal
      match expectPeek .ASSIGN p1 with
      | (false, p2) => (none, p2)
      | (true, p2) =>
          let p3 := skipToSemicolon fuel p2
          (some (.letStatement name none), p3)

/-- parseReturnStatement from the source: advance past the return token
and skip until a semicolon; the produced return statement carries no
value expression (the source never sets it). -/
def parseReturnStatement (fuel : Nat) (p : ParserState) :
    Option Statement × ParserState :=
  let p1 := pNextToken p
  let p2 := skipToSemicolon fuel p1
  (some (.returnStatement none), p2)

/-- parseStatement from the source: dispatch on the current token. -/
def parseStatement (fuel : Nat) (p : ParserState) :
    Option Statement × ParserState :=
  match p.curToken.type with
  | .LET => parseLetStatement fuel p
  | .RETURN => parseReturnStatement fuel p
  | _ =>
      let (stmt, p1) := parseExpressionStatement fuel p
      (some stmt, p1)

/-- ParseProgram from the source: parse statements (appending the
non-nil ones) and advance, until the current token is EOF. -/
def ParseProgram : Nat → ParserState → List Statement × ParserState
  | 0, p => ([], { p with hung := true })
  | fuel + 1, p =>
      if p.curToken.type == .EOF then ([], p)
      else
        let (stmt, p1) := parseStatement fuel p
        let p2 := pNextToken p1
        let (rest, p3) := ParseProgram fuel p2
        ((match stmt with | some st => [st] | none => []) ++ rest, p3)

/-- The token stream the tokenizer produces for "5 + 2 * 10". -/
def tokensArith : List Token :=
  [⟨.INT, "5"⟩, ⟨.PLUS, "+"⟩, ⟨.INT, "2"⟩, ⟨.ASTERISK, "*"⟩, ⟨.INT, "10"⟩, ⟨.EOF, ""⟩]

/-- Parse a token stream with the src parser and evaluate the resulting
program against a fresh top-level environment. -/
def parseAndEval (fuel : Nat) (tokens : List Token) : Outcome × EvalState :=
  let (stmts, _) := ParseProgram fuel (New tokens)
  runProgram fuel ⟨stmts⟩

/-- The AST of the closure test program of the spec and the repository's
own TestClosures: let newAdder = fn(x){ fn(y){ x + y } };
let addTwo = newAdder(2); addTwo(2); -/
def closureProgram : Program :=
  ⟨[ .letStatement "newAdder" (some (.functionLiteral ["x"]
       (.mk [ .expressionStatement (some (.functionLiteral ["y"]
         (.mk [ .expressionStatement (some (.infixExpression "+"
           (.identifier "x") (.identifier "y"))) ]))) ]))),
     .letStatement "addTwo" (some (.callExpression (.identifier "newAdder")
       [.integerLiteral 2])),
     .expressionStatement (some (.callExpression (.identifier "addTwo")
       [.integerLiteral 2])) ]⟩

/-- A two-parameter function called with a single argument:
fn(x, y){ 5 }(1).  The body never references y. -/
def missingArgProgram : Program :=
  ⟨[ .expressionStatement (some (.callExpression
       (.functionLiteral ["x", "y"]
         (.mk [ .expressionStatement (some (.integerLiteral 5)) ]))
       [.integerLiteral 1])) ]⟩

/-- An index expression whose container is an unbound identifier and
whose index prints: foo[print(1)]. -/
def indexAfterErrorProgram : Program :=
  ⟨[ .expressionStatement (some (.indexExpression (.identifier "foo")
       (.callExpression (.identifier "print") [.integerLiteral 1]))) ]⟩

/-- An expression with an observable effect: fn(){ print(n); n }()
evaluates to Integer n after printing its rendering. -/
def effectExpression (n : Int) : Expression :=
  .callExpression (.functionLiteral [] (.mk
    [ .expressionStatement (some (.callExpression (.identifier "print")
        [.integerLiteral n])),
      .expressionStatement (some (.integerLiteral n)) ])) []

/-- A hash literal whose keys and values all print when evaluated. -/
def orderedHashProgram : Program :=
  ⟨[ .expressionStatement (some (.hashLiteral
      [(effectExpression 1, effectExpression 2),
       (effectExpression 3, effectExpression 4)])) ]⟩

/-- A return statement whose operand is an if expression containing a
return: return if (true) { return 5; }; -/
def nestedReturnProgram : Program :=
  ⟨[ .returnStatement (some (.ifExpression (.booleanLit true)
       (.mk [ .returnStatement (some (.integerLiteral 5)) ]) none)) ]⟩

/-- A program whose final (and only) statement is a let whose value
expression is an unbound identifier: let x = y; -/
def failingLetProgram : Program :=
  ⟨[ .letStatement "x" (some (.identifier "y")) ]⟩

/-- Binding loop failure: when the arguments run out before the
parameters, the source's args[paramIdx] read is out of range. -/
theorem bindParameters_none_of_short (ps : List String) :
    ∀ (args : List (Option Object)) (heap : EnvHeap) (ref : Nat),
    args.length < ps.length → bindParameters heap ref ps args = none := by
  induction ps with
  | nil => intro args heap ref h; simp at h
  | cons p ps ih =>
      intro args heap ref h
      cases args with
      | nil => rfl
      | cons a rest =>
          simp only [bindParameters]
          exact ih rest (environmentSet heap ref p a) ref (by simpa using h)

/-- Updating a binding rewrites the store of the addressed environment
and leaves its outer reference unchanged. -/
theorem environmentSet_get_self (heap : EnvHeap) (ref : Nat) (name : String)
    (v : Option Object) (e : Environment) (h : heap.get? ref = some e) :
    (environmentSet heap ref name v).get? ref
      = some { e with store := envSetLocal e.store name v } := by
  have hlt : ref < heap.length := by
    obtain ⟨hlt, -⟩ := List.get?_eq_some.mp h
    exact hlt
  unfold environmentSet
  rw [h, List.get?_eq_getElem?, List.getElem?_set_self (by simpa using hlt)]

/-- The binding loop never changes an environment's outer reference. -/
theorem bindParameters_get_outer (ps : List String) :
    ∀ (args : List (Option Object)) (heap heap' : EnvHeap) (ref : Nat)
      (e : Environment),
    bindParameters heap ref ps args = some heap' →
    heap.get? ref = some e →
    ∃ st, heap'.get? ref = some { store := st, outer := e.outer } := by
  induction ps with
  | nil =>
      intro args heap heap' ref e hb hg
      have hh : heap = heap' := by
        cases args with
        | nil => simpa [bindParameters] using hb
        | cons a rest => simpa [bindParameters] using hb
      subst hh
      refine ⟨e.store, ?_⟩
      cases e
      exact hg
  | cons p ps ih =>
      intro args heap heap' ref e hb hg
      cases args with
      | nil => simp [bindParameters] at hb
      | cons a rest =>
          simp only [bindParameters] at hb
          exact ih rest _ heap' ref
            { store := envSetLocal e.store p a, outer := e.outer } hb
            (environmentSet_get_self heap ref p a e hg)

/-- An Int already inside the signed 64-bit range is unchanged by the
wrap. -/
theorem wrap64_eq_self {x : Int} (h1 : -(2 ^ 63) ≤ x) (h2 : x < 2 ^ 63) :
    wrap64 x = x := by
  unfold wrap64
  omega

/-- Truncating division of in-range int64 operands stays in range except
for the lone overflow case MIN / -1. -/
theorem tdiv_in_int64_range {a b : Int}
    (ha1 : -(2 ^ 63) ≤ a) (ha2 : a < 2 ^ 63) (hb : b ≠ 0)
    (hx : ¬(a = -(2 ^ 63) ∧ b = -1)) :
    -(2 ^ 63) ≤ Int.tdiv a b ∧ Int.tdiv a b < 2 ^ 63 := by
  have habs : (Int.tdiv a b).natAbs = a.natAbs / b.natAbs := Int.natAbs_tdiv a b
  have hble : 1 ≤ b.natAbs := by omega
  rcases Nat.lt_or_ge b.natAbs 2 with hb1 | hb2
  · have hb1' : b.natAbs = 1 := by omega
    have : b = 1 ∨ b = -1 := by omega
    rcases this with rfl | rfl
    · have : Int.tdiv a 1 = a := Int.tdiv_one a
      omega
    · have hane : a ≠ -(2 ^ 63) := fun h => hx ⟨h, rfl⟩
      have : a.natAbs / (-1 : Int).natAbs = a.natAbs := by norm_num
      omega
  · have hdle : a.natAbs / b.natAbs ≤ a.natAbs / 2 :=
      Nat.div_le_div_left hb2 (by omega)
    have : a.natAbs / 2 ≤ 2 ^ 62 := by omega
    omega

/-- C7: indexing an Array with an Integer index yields Null (never an
Error) for every out-of-range index, negative indices included, and the
element at that position for every in-range index. -/
theorem C7_array_index_out_of_range_yields_null
    (elements : List (Option Object)) (idx : Int) :
    ((idx < 0 ∨ (elements.length : Int) ≤ idx) →
      evalArrayIndexExpression (.array elements) (.integer idx) = .val (some .null))
    ∧ (0 ≤ idx → idx < (elements.length : Int) →
      evalArrayIndexExpression (.array elements) (.integer idx)
        = .val (elements.getD idx.toNat none)) := by
  constructor
  · intro h
    simp only [evalArrayIndexExpression]
    rw [if_pos (by omega)]
  · intro h1 h2
    simp only [evalArrayIndexExpression]
    rw [if_neg (by omega)]

/-- Witness for C7 on the two-element array [7, 8]: index 5 is out of
range and yields Null, index 1 is in range and yields the element 8. -/
theorem C7_array_index_witness :
    ((5 : Int) < 0 ∨ (([some (.integer 7), some (.integer 8)] :
        List (Option Object)).length : Int) ≤ 5)
    ∧ evalArrayIndexExpression (.array [some (.integer 7), some (.integer 8)])
        (.integer 5) = .val (some .null)
    ∧ evalArrayIndexExpression (.array [some (.integer 7), some (.integer 8)])
        (.integer 1) = .val (some (.integer 8)) := by
  refine ⟨by decide, ?_, ?_⟩
  · exact (C7_array_index_out_of_range_yields_null
      [some (.integer 7), some (.integer 8)] 5).1 (by decide)
  · exact (C7_array_index_out_of_range_yields_null
      [some (.integer 7), some (.integer 8)] 1).2 (by decide) (by decide)

/-- C8: for int64 operands, the Integer-Integer infix operators follow
Go's 64-bit signed semantics: + - * wrap, / truncates toward zero when
the divisor is nonzero (and, MIN / -1 aside, equals the exact truncating
quotient), and the comparisons yield the Boolean of the mathematical
comparison. -/
theorem C8_integer_infix_int64_semantics (a b : Int)
    (ha1 : -(2 ^ 63) ≤ a) (ha2 : a < 2 ^ 63)
    (_hb1 : -(2 ^ 63) ≤ b) (_hb2 : b < 2 ^ 63) :
    evalInfixExpression "+" (some (.integer a)) (some (.integer b))
      = .val (some (.integer (wrap64 (a + b))))
    ∧ evalInfixExpression "-" (some (.integer a)) (some (.integer b))
      = .val (some (.integer (wrap64 (a - b))))
    ∧ evalInfixExpression "*" (some (.integer a)) (some (.integer b))
      = .val (some (.integer (wrap64 (a * b))))
    ∧ (b ≠ 0 → ¬(a = -(2 ^ 63) ∧ b = -1) →
        evalInfixExpression "/" (some (.integer a)) (some (.integer b))
          = .val (some (.integer (Int.tdiv a b))))
    ∧ evalInfixExpression ">" (some (.integer a)) (some (.integer b))
      = .val (some (.boolean (decide (b < a))))
    ∧ evalInfixExpression "<" (some (.integer a)) (some (.integer b))
      = .val (some (.boolean (decide (a < b))))
    ∧ evalInfixExpression "==" (some (.integer a)) (some (.integer b))
      = .val (some (.boolean (decide (a = b))))
    ∧ evalInfixExpression "!=" (some (.integer a)) (some (.integer b))
      = .val (some (.boolean (decide (a ≠ b)))) := by
  refine ⟨rfl, rfl, rfl, ?_, rfl, rfl, rfl, rfl⟩
  intro hbz hx
  have hrange := tdiv_in_int64_range ha1 ha2 hbz hx
  have hself : wrap64 (Int.tdiv a b) = Int.tdiv a b := by unfold wrap64; omega
  have hstep : evalInfixExpression "/" (some (.integer a)) (some (.integer b))
      = if b = 0 then .hostPanic
        else .val (some (.integer (wrap64 (Int.tdiv a b)))) := rfl
  rw [hstep, if_neg hbz, hself]

/-- Witness for C8 at the operands 7 and -2: addition gives the wrapped
(exact) sum 5 and division truncates toward zero to -3. -/
theorem C8_integer_infix_witness :
    evalInfixExpression "+" (some (.integer 7)) (some (.integer (-2)))
      = .val (some (.integer (wrap64 (7 + -2))))
    ∧ evalInfixExpression "/" (some (.integer 7)) (some (.integer (-2)))
      = .val (some (.integer (Int.tdiv 7 (-2)))) := by
  have h := C8_integer_infix_int64_semantics 7 (-2)
    (by norm_num) (by norm_num) (by norm_num) (by norm_num)
  exact ⟨h.1, h.2.2.2.1 (by norm_num) (by decide)⟩

/-- C9: the push builtin returns a new array holding exactly the input
array's elements followed by the pushed object; the result is one longer
and its prefix is the unchanged input element list (the source copies
into a freshly allocated slice, so the argument array is not mutated —
in this embedding arrays are immutable values, which makes the
non-mutation explicit). -/
theorem C9_push_returns_appended_new_array
    (elements : List (Option Object)) (x : Option Object) :
    callBuiltin "push" [some (.array elements), x]
      = (.val (some (.array (elements ++ [x]))), [])
    ∧ (elements ++ [x]).length = elements.length + 1
    ∧ (elements ++ [x]).take elements.length = elements := by
  refine ⟨rfl, by simp, by simp⟩

/-- C1: the claim states that the parser resolves infix precedence so
that "5 + 2 * 10" parses and evaluates to 25.  The parser in
src/parser/parser.go registers no infix parse functions and its
parseExpression has no precedence loop, so on that token stream it
produces five expression statements (the operator tokens yield
no-prefix-parse-function diagnostics and nil expressions) and the
program evaluates to Integer 10, not 25 — contradicting the
repository's own test TestEvalIntegerExpression.  This theorem
evaluates the embedded source parser at that failing input. -/
theorem C1_src_parser_lacks_infix_precedence :
    (parseAndEval 99 tokensArith).1 = .val (some (.integer 10))
    ∧ (Outcome.val (some (.integer 10)) : Outcome) ≠ .val (some (.integer 25))
    ∧ (ParseProgram 99 (New tokensArith)).2.errors
        = ["no prefix parse function found for +",
           "no prefix parse function found for *"] := by
  refine ⟨rfl, ?_, rfl⟩
  simp

/-- C2: a function literal evaluates to a Function object capturing the
evaluating environment; a call extends the function's captured
environment (never the caller's) with a freshly allocated enclosed
environment; and the closure program let newAdder = fn(x){ fn(y){ x+y } };
let addTwo = newAdder(2); addTwo(2); evaluates to Integer 4. -/
theorem C2_closures_capture_defining_scope (fuel : Nat) :
    (∀ (params : List String) (body : BlockStatement) (env : Nat) (s : EvalState),
      evalExpr (fuel + 1) (.functionLiteral params body) env s
        = (.val (some (.function params body env)), s))
    ∧ (∀ (heap : EnvHeap) (params : List String) (fnEnv : Nat)
        (args : List (Option Object)) (ref : Nat) (heap' : EnvHeap),
        extendFunction heap params fnEnv args = some (ref, heap') →
        ref = heap.length ∧
        ∃ st, heap'.get? ref = some { store := st, outer := some fnEnv })
    ∧ (runProgram 99 closureProgram).1 = .val (some (.integer 4)) := by
  refine ⟨fun params body env s => rfl, ?_, rfl⟩
  intro heap params fnEnv args ref heap' h
  unfold extendFunction newEnclosedEnvironment at h
  dsimp only at h
  cases hb : bindParameters (heap ++ [{ store := [], outer := some fnEnv }])
      heap.length params args with
  | none => rw [hb] at h; simp at h
  | some heap2 =>
      rw [hb] at h
      simp only [Option.some.injEq, Prod.mk.injEq] at h
      obtain ⟨rfl, rfl⟩ := h
      refine ⟨rfl, ?_⟩
      exact bindParameters_get_outer params args _ _ heap.length
        { store := [], outer := some fnEnv } hb
        (by rw [List.get?_eq_getElem?]; exact List.getElem?_concat_length _ _)

/-- Witness for C2: extending a one-environment heap through a
one-parameter function captured at reference 0 allocates reference 1
with outer link 0. -/
theorem C2_closures_witness :
    ∃ st, ([{ store := [], outer := none },
            { store := [("x", some (.integer 2))], outer := some 0 }] :
        EnvHeap).get? 1 = some { store := st, outer := some 0 } :=
  ((C2_closures_capture_defining_scope 0).2.1 [{ store := [], outer := none }]
    ["x"] 0 [some (.integer 2)] 1
    [{ store := [], outer := none },
     { store := [("x", some (.integer 2))], outer := some 0 }] rfl).2

/-- C3 counterexample: the claim says a call with fewer arguments than
parameters does not fail at the call site and the body's result (here
Integer 5, since the body never references the missing parameter) is
produced.  Evaluating fn(x, y){ 5 }(1) instead reaches the out-of-range
read args[1] in extendFunction and the evaluation is a host panic. -/
theorem C3_missing_args_counterexample :
    runProgram 99 missingArgProgram = (.hostPanic, initialState)
    ∧ Outcome.hostPanic ≠ Outcome.val (some (.integer 5)) :=
  ⟨rfl, fun h => Outcome.noConfusion h⟩

/-- C3 amended: calling a user-defined function with fewer arguments
than parameters fails eagerly at the call site: extendFunction reads the
argument list at every parameter position, so a missing argument is a
host index-out-of-range panic, and no parameter is ever left unbound. -/
theorem C3_missing_args_panic_at_call_site :
    (∀ (heap : EnvHeap) (params : List String) (fnEnv : Nat)
        (args : List (Option Object)),
      args.length < params.length → extendFunction heap params fnEnv args = none)
    ∧ (∀ (fuel : Nat) (params : List String) (body : BlockStatement) (fnEnv : Nat)
        (args : List (Option Object)) (s : EvalState),
      args.length < params.length →
      applyFunction (fuel + 1) (some (.function params body fnEnv)) args s
        = (.hostPanic, s)) := by
  have hext : ∀ (heap : EnvHeap) (params : List String) (fnEnv : Nat)
      (args : List (Option Object)),
      args.length < params.length → extendFunction heap params fnEnv args = none := by
    intro heap params fnEnv args h
    unfold extendFunction newEnclosedEnvironment
    dsimp only
    rw [bindParameters_none_of_short params args _ _ h]
  refine ⟨hext, ?_⟩
  intro fuel params body fnEnv args s h
  simp only [applyFunction]
  rw [hext s.heap params fnEnv args h]

/-- Witness for C3: a two-parameter function applied to one argument. -/
theorem C3_missing_args_witness :
    extendFunction [{ store := [], outer := none }] ["x", "y"] 0
      [some (.integer 1)] = none :=
  C3_missing_args_panic_at_call_site.1 _ _ _ _ (by decide)

/-- C4 counterexample: the claim says that when the container of an
index expression evaluates to an Error, the index expression is not
evaluated at all.  For foo[print(1)] the container lookup fails, yet the
print in the index runs (the output trace holds the printed object)
before the container's error is returned. -/
theorem C4_index_error_counterexample :
    runProgram 99 indexAfterErrorProgram
      = (.val (some (.error "identifier not found: foo")),
         { heap := [{ store := [], outer := none }], output := [.integer 1] })
    ∧ ([Object.integer 1] : List Object) ≠ [] := by
  refine ⟨?_, fun h => List.noConfusion h⟩
  rfl

/-- C4 amended: an infix expression whose left operand evaluates to an
Error returns it with the right operand unevaluated (state untouched
past the left evaluation); but an index expression evaluates BOTH the
container and the index before any error check — the container's error
takes precedence in the result, while the index expression's evaluation
effects have already occurred. -/
theorem C4_error_propagation_amended :
    (∀ (fuel : Nat) (op : String) (l r : Expression) (env : Nat)
        (s s' : EvalState) (msg : String),
      evalExpr fuel l env s = (.val (some (.error msg)), s') →
      evalExpr (fuel + 1) (.infixExpression op l r) env s
        = (.val (some (.error msg)), s'))
    ∧ (∀ (fuel : Nat) (l i : Expression) (env : Nat) (s s1 s2 : EvalState)
        (msg : String) (v : Option Object),
      evalExpr fuel l env s = (.val (some (.error msg)), s1) →
      evalExpr fuel i env s1 = (.val v, s2) →
      evalExpr (fuel + 1) (.indexExpression l i) env s
        = (.val (some (.error msg)), s2)) := by
  constructor
  · intro fuel op l r env s s' msg h
    simp only [evalExpr]
    rw [h]
    rfl
  · intro fuel l i env s s1 s2 msg v h1 h2
    simp only [evalExpr]
    rw [h1]
    dsimp only
    rw [h2]
    rfl

/-- Witness for C4: the index expression foo[print(1)] at the initial
state — the container errors, the index's print effect occurs, and the
container's error is the result. -/
theorem C4_error_propagation_witness :
    evalExpr 99 (.indexExpression (.identifier "foo")
        (.callExpression (.identifier "print") [.integerLiteral 1])) 0 initialState
      = (.val (some (.error "identifier not found: foo")),
         { heap := [{ store := [], outer := none }], output := [.integer 1] }) :=
  C4_error_propagation_amended.2 98 _ _ 0 initialState initialState
    { heap := [{ store := [], outer := none }], output := [.integer 1] }
    "identifier not found: foo" (some .null) rfl rfl

/-- C5: a hash literal evaluates its declared pairs in textual order —
for each pair the key first (an error in it propagates immediately, with
the value and all later pairs unevaluated), then the value (an error in
it propagates immediately, with all later pairs unevaluated), then the
next pair starting from the state the value left; the ordered-output
conjunct exhibits the order on a literal whose keys and values all
print. -/
theorem C5_hash_literal_ordered_error_propagation :
    (∀ (fuel : Nat) (k v : Expression) (rest : List (Expression × Expression))
        (env : Nat) (s s1 : EvalState) (msg : String)
        (acc : List (HashKey × Object × Option Object)),
      evalExpr fuel k env s = (.val (some (.error msg)), s1) →
      evalHashPairs (fuel + 1) ((k, v) :: rest) env s acc
        = (.val (some (.error msg)), s1))
    ∧ (∀ (fuel : Nat) (k v : Expression) (rest : List (Expression × Expression))
        (env : Nat) (s s1 s2 : EvalState) (msg : String) (kobj : Object)
        (hk : HashKey) (acc : List (HashKey × Object × Option Object)),
      evalExpr fuel k env s = (.val (some kobj), s1) →
      isError (some kobj) = false →
      hashKeyOf kobj = some hk →
      evalExpr fuel v env s1 = (.val (some (.error msg)), s2) →
      evalHashPairs (fuel + 1) ((k, v) :: rest) env s acc
        = (.val (some (.error msg)), s2))
    ∧ (∀ (fuel : Nat) (k v : Expression) (rest : List (Expression × Expression))
        (env : Nat) (s s1 s2 : EvalState) (kobj : Object) (hk : HashKey)
        (vv : Option Object) (acc : List (HashKey × Object × Option Object)),
      evalExpr fuel k env s = (.val (some kobj), s1) →
      isError (some kobj) = false →
      hashKeyOf kobj = some hk →
      evalExpr fuel v env s1 = (.val vv, s2) →
      isError vv = false →
      evalHashPairs (fuel + 1) ((k, v) :: rest) env s acc
        = evalHashPairs fuel rest env s2 (hashInsert acc hk (kobj, vv)))
    ∧ (runProgram 99 orderedHashProgram).2.output
        = [.integer 1, .integer 2, .integer 3, .integer 4] := by
  refine ⟨?_, ?_, ?_, rfl⟩
  · intro fuel k v rest env s s1 msg acc h
    simp only [evalHashPairs]
    rw [h]
    rfl
  · intro fuel k v rest env s s1 s2 msg kobj hk acc h1 hne hhk h2
    simp only [evalHashPairs]
    rw [h1]
    dsimp only
    rw [hne, if_neg Bool.false_ne_true]
    rw [hhk]
    dsimp only
    rw [h2]
    rfl
  · intro fuel k v rest env s s1 s2 kobj hk vv acc h1 hne hhk h2 hvne
    simp only [evalHashPairs]
    rw [h1]
    dsimp only
    rw [hne, if_neg Bool.false_ne_true]
    rw [hhk]
    dsimp only
    rw [h2]
    dsimp only
    rw [hvne, if_neg Bool.false_ne_true]

/-- Witness for C5: a pair whose key expression is unbound makes the
hash literal evaluate to that error with nothing else evaluated. -/
theorem C5_hash_literal_witness :
    evalHashPairs 2 [(.identifier "nope", .integerLiteral 1)] 0 initialState []
      = (.val (some (.error "identifier not found: nope")), initialState) :=
  C5_hash_literal_ordered_error_propagation.1 1 _ _ [] 0 initialState
    initialState "identifier not found: nope" [] rfl

/-- C6 counterexample: the claim says the top-level eval result is never
a ReturnValue.  For the program return if (true) { return 5; }; the
return operand itself evaluates to a ReturnValue, the return statement
wraps it again, and evalProgram unwraps only one layer — the top-level
result is an object of ReturnValue type. -/
theorem C6_return_value_escapes_counterexample :
    runProgram 99 nestedReturnProgram
      = (.val (some (.returnValue (some (.integer 5)))), initialState)
    ∧ objType (.returnValue (some (.integer 5))) = RETURN_VALUE_OBJ :=
  ⟨rfl, rfl⟩

/-- C6 amended: evalProgram and applyFunction unwrap exactly ONE
ReturnValue layer: a statement producing ReturnValue v makes the program
yield v, and a function body producing v makes the application yield
unwrapReturnValue v (one layer stripped).  The result is therefore not a
ReturnValue unless the wrapped value is itself a ReturnValue, which is
reachable (see the counterexample) because a return operand containing
an if-expression with a return evaluates to a ReturnValue. -/
theorem C6_single_unwrap_of_return_value :
    (∀ (v : Option Object), unwrapReturnValue (some (.returnValue v)) = v)
    ∧ (∀ (fuel : Nat) (stmt : Statement) (rest : List Statement) (env : Nat)
        (s : EvalState) (v : Option Object) (s1 : EvalState),
      evalStmt fuel stmt env s = (.val (some (.returnValue v)), s1) →
      evalProgram (fuel + 1) (stmt :: rest) env s = (.val v, s1))
    ∧ (∀ (fuel : Nat) (params : List String) (bodyStmts : List Statement)
        (fnEnv : Nat) (args : List (Option Object)) (s : EvalState)
        (ref : Nat) (heap1 : EnvHeap) (v : Option Object) (s2 : EvalState),
      extendFunction s.heap params fnEnv args = some (ref, heap1) →
      evalBlockStmts fuel bodyStmts ref { s with heap := heap1 } = (.val v, s2) →
      applyFunction (fuel + 1) (some (.function params (.mk bodyStmts) fnEnv)) args s
        = (.val (unwrapReturnValue v), s2)) := by
  refine ⟨fun v => rfl, ?_, ?_⟩
  · intro fuel stmt rest env s v s1 h
    simp only [evalProgram]
    rw [h]
  · intro fuel params bodyStmts fnEnv args s ref heap1 v s2 hext hbody
    simp only [applyFunction]
    rw [hext]
    dsimp only
    rw [hbody]

/-- Witness for C6: the program return 5; 9; yields the unwrapped 5. -/
theorem C6_single_unwrap_witness :
    evalProgram 6 [.returnStatement (some (.integerLiteral 5)),
        .expressionStatement (some (.integerLiteral 9))] 0 initialState
      = (.val (some (.integer 5)), initialState) :=
  C6_single_unwrap_of_return_value.2.1 5 _ _ 0 initialState
    (some (.integer 5)) initialState rfl

/-- C10 counterexample: the claim says every program whose final
statement is a let returns the host's nil value.  For let x = y; the
let's value expression fails to resolve and the Error object — not nil —
is returned. -/
theorem C10_final_let_error_counterexample :
    runProgram 99 failingLetProgram
      = (.val (some (.error "identifier not found: y")), initialState)
    ∧ Outcome.val (some (.error "identifier not found: y")) ≠ Outcome.val none := by
  refine ⟨rfl, ?_⟩
  simp

/-- C10 amended: evaluating an empty Program returns the host's nil
value (no Object at all), and a Program whose final statement is a let
returns nil PROVIDED evaluation reaches the let and its value expression
evaluates without error — the let branch itself produces no result and
only binds the name. -/
theorem C10_nil_result_for_empty_and_let :
    (∀ (fuel : Nat) (env : Nat) (s : EvalState),
      Eval (fuel + 1) ⟨[]⟩ env s = (.val none, s))
    ∧ (∀ (fuel : Nat) (name : String) (e : Expression) (env : Nat)
        (s : EvalState) (v : Object) (s1 : EvalState),
      evalExpr fuel e env s = (.val (some v), s1) →
      isError (some v) = false →
      Eval (fuel + 2) ⟨[.letStatement name (some e)]⟩ env s
        = (.val none, { s1 with heap := environmentSet s1.heap env name (some v) })) := by
  refine ⟨fun fuel env s => rfl, ?_⟩
  intro fuel name e env s v s1 h hne
  show evalProgram (fuel + 2) [.letStatement name (some e)] env s = _
  simp only [evalProgram, evalStmt]
  rw [h]
  dsimp only
  simp [hne]

/-- Witness for C10: the one-statement program let a = 5; returns nil
and leaves the binding in the heap. -/
theorem C10_nil_result_witness :
    Eval 3 ⟨[.letStatement "a" (some (.integerLiteral 5))]⟩ 0 initialState
      = (.val none,
         { initialState with
             heap := environmentSet initialState.heap 0 "a" (some (.integer 5)) }) :=
  C10_nil_result_for_empty_and_let.2 1 "a" (.integerLiteral 5) 0 initialState
    (.integer 5) initialState rfl rfl
